import Mathlib

/-!
Shallow embedding of the Shellmind Tool Invocation & Command-Orchestration
Engine (crates/core/src/lib.rs, crates/core/src/tools.rs,
crates/shellmind/src/main.rs), together with theorems settling the
specification claims about it.

Modelling conventions:
* `serde_json::Value` is modelled by `JsonVal`; `params.get(k).and_then(as_str)`
  by `getStr`.
* The file system visible to the file tools is `FS := String → Option String`;
  `tokio::fs::read_to_string` failure is modelled by the path being absent,
  and `tokio::fs::write` is modelled as always succeeding.
* Rust `Result<T, ShellmindError>` is `Except String T` (the error payload is
  the formatted message).  An `Except.error` escaping a modelled function is
  exactly an `Err` value crossing that function boundary in the Rust code; in
  the session loop such an `Err` is propagated by the `?` operator out of
  `ShellmindCLI::start`, i.e. the session terminates.
* Interactive prompts (`dialoguer::Confirm` / `dialoguer::Select`) are
  modelled by the oracle inputs `confirmChoice : Bool` and
  `selectChoice : Option Nat` (the index chosen, `none` = cancelled).
* The network is abstracted: `generate_command_rest` is modelled from the
  point the HTTP response has arrived, `generate_command_grpc` from the point
  the unary call has returned, and shell process spawning is an oracle
  `spawn : String → Except String ProcOutput`.
-/

namespace Shellmind

/-- Model of `serde_json::Value`. -/
inductive JsonVal where
  | jnull : JsonVal
  | jbool : Bool → JsonVal
  | jnum : Int → JsonVal
  | jstr : String → JsonVal
  | jarr : List JsonVal → JsonVal
  | jobj : List (String × JsonVal) → JsonVal

/-- Association-list field lookup, modelling `serde_json::Value::get` on an
object (the maps preserve one binding per key for the inputs we build). -/
def lookupField : List (String × JsonVal) → String → Option JsonVal
  | [], _ => none
  | (k, v) :: rest, key => if k = key then some v else lookupField rest key

/-- `Value::get(key)`: `Some` only on objects having the key. -/
def JsonVal.get : JsonVal → String → Option JsonVal
  | .jobj fields, key => lookupField fields key
  | _, _ => none

/-- `Value::as_str`. -/
def JsonVal.as_str : JsonVal → Option String
  | .jstr s => some s
  | _ => none

/-- `params.get(key).and_then(|p| p.as_str())`, the parameter-extraction
idiom used by every tool in `tools.rs`. -/
def getStr (params : JsonVal) (key : String) : Option String :=
  (params.get key).bind JsonVal.as_str

/-- Model of `core::ToolResult` (`Success(String) | Error(String)`): the
typed execution outcome of a tool. -/
inductive ToolResult where
  | Success : String → ToolResult
  | Error : String → ToolResult
  deriving DecidableEq, Repr

/-- The file store visible to the file tools: path to content. -/
def FS : Type := String → Option String

/-- `tokio::fs::write`, modelled as an always-succeeding store update. -/
def fsWrite (fs : FS) (path content : String) : FS :=
  fun q => if q = path then some content else fs q

/-- Does `pat` occur as a prefix of `s`?  (Boolean, used by the
`str::replace` model below.) -/
def startsWithL : List Char → List Char → Bool
  | [], _ => true
  | _ :: _, [] => false
  | a :: as, b :: bs => a = b && startsWithL as bs

/-- Model of Rust `str::replace(old, new)` on character lists: scan left to
right; at each position, if `old` matches, emit `new` and skip past the
match (non-overlapping, leftmost-first); an empty `old` matches at every
character boundary including the end, exactly as Rust `match_indices` does. -/
def replaceL (old new : List Char) : List Char → List Char
  | [] => if old = [] then new else []
  | c :: rest =>
    if old ≠ [] ∧ startsWithL old (c :: rest) then
      new ++ replaceL old new (rest.drop (old.length - 1))
    else if old = [] then
      new ++ c :: replaceL old new rest
    else
      c :: replaceL old new rest
termination_by s => s.length
decreasing_by
  · simp only [List.length_drop, List.length_cons]
    omega
  · simp only [List.length_cons]
    omega
  · simp only [List.length_cons]
    omega

/-- Rust `String::replace` lifted to `String`. -/
def rustReplace (s old new : String) : String :=
  ⟨replaceL old.data new.data s.data⟩

/-- `ReadFileTool::execute` (tools.rs lines 51-62): a missing `path`
parameter is an `Err` (`?` on `ok_or_else`); an unreadable file is folded
into `ToolResult::Error`; otherwise the content is returned. -/
def readFileExecute (params : JsonVal) (fs : FS) : Except String ToolResult :=
  match getStr params "path" with
  | none => .error "Missing path parameter for ReadFileTool"
  | some path =>
    match fs path with
    | some content => .ok (ToolResult.Success content)
    | none => .ok (ToolResult.Error ("Failed to read file " ++ path))

/-- `WriteFileTool::execute` (tools.rs lines 112-126): missing `path` or
`content` is an `Err`; the write itself is modelled as succeeding. -/
def writeFileExecute (params : JsonVal) (fs : FS) :
    Except String (ToolResult × FS) :=
  match getStr params "path" with
  | none => .error "Missing path parameter for WriteFileTool"
  | some path =>
    match getStr params "content" with
    | none => .error "Missing content parameter for WriteFileTool"
    | some content =>
      .ok (ToolResult.Success ("Successfully wrote to file " ++ path ++ "."),
           fsWrite fs path content)

/-- `EditTool::execute` (tools.rs lines 183-206): missing parameters are
`Err`s; an unreadable file is folded into `ToolResult::Error`; otherwise the
content has every occurrence of `old_string` replaced by `new_string`
(`content.replace(old_string, new_string)`) and is written back to the same
`file_path`. -/
def editExecute (params : JsonVal) (fs : FS) :
    Except String (ToolResult × FS) :=
  match getStr params "file_path" with
  | none => .error "Missing file_path parameter for EditTool"
  | some filePath =>
    match getStr params "old_string" with
    | none => .error "Missing old_string parameter for EditTool"
    | some oldString =>
      match getStr params "new_string" with
      | none => .error "Missing new_string parameter for EditTool"
      | some newString =>
        match fs filePath with
        | none => .ok (ToolResult.Error ("Failed to read file " ++ filePath), fs)
        | some content =>
          .ok (ToolResult.Success ("Successfully edited file " ++ filePath ++ "."),
               fsWrite fs filePath (rustReplace content oldString newString))

/-- `ReadFileTool::should_confirm_execute` (tools.rs lines 47-49): reading
needs no confirmation. -/
def read_file_should_confirm (_params : JsonVal) : Option String := none

/-- `WriteFileTool::should_confirm_execute` (tools.rs lines 108-110). -/
def write_file_should_confirm (_params : JsonVal) : Option String :=
  some "This will write content to a file. Are you sure?"

/-- `EditTool::should_confirm_execute` (tools.rs lines 179-181). -/
def edit_should_confirm (_params : JsonVal) : Option String :=
  some "This will modify a file. Are you sure?"

/-- The `BaseTool` capability surface the session loop uses: identity,
`should_confirm_execute` and `execute` (lib.rs lines 280-289).  `run` both
returns the tool result and the updated file store; an `Except.error` is an
`Err(ShellmindError)` raised past the `execute` boundary. -/
structure MTool where
  name : String
  should_confirm_execute : JsonVal → Option String
  run : JsonVal → FS → Except String (ToolResult × FS)

/-- `ToolRegistry::get_tool` (lib.rs lines 324-326): name-keyed lookup; the
registry built in `ShellmindCLI::new` has pairwise distinct names, so an
association list models the `HashMap`. -/
def get_tool (reg : List MTool) (name : String) : Option MTool :=
  reg.find? (fun t => t.name = name)

/-- The registered `read_file` tool instance. -/
def readFileTool : MTool :=
  ⟨"read_file", read_file_should_confirm,
   fun p fs => (readFileExecute p fs).map (fun r => (r, fs))⟩

/-- The registered `write_file` tool instance. -/
def writeFileTool : MTool :=
  ⟨"write_file", write_file_should_confirm, writeFileExecute⟩

/-- The registered `edit_file` tool instance. -/
def editFileTool : MTool :=
  ⟨"edit_file", edit_should_confirm, editExecute⟩

/-- `core::GeminiPart` (lib.rs lines 340-343). -/
structure GeminiPart where
  text : String
  deriving DecidableEq, Repr

/-- `core::GeminiContent` (lib.rs lines 345-349): one history turn. -/
structure GeminiContent where
  role : String
  parts : List GeminiPart
  deriving DecidableEq, Repr

/-- `core::Candidate` (lib.rs lines 362-365) of the REST `GeminiResponse`. -/
structure Candidate where
  content : GeminiContent
  deriving DecidableEq, Repr

/-- The candidate-decoding step shared by both transports (lib.rs lines
411-416): first candidate, first part, else the literal fallback. -/
def decodeRestCandidates (candidates : List Candidate) : String :=
  (((candidates.head?).bind (fun c => c.content.parts.head?)).map
      (fun p => p.text)).getD "No command generated"

/-- The state of the HTTP exchange in `generate_command_rest` once the
response has arrived: its status, the raw body text (used in the error
message), and the body decoded as `GeminiResponse` when that succeeds. -/
structure RestHttpResponse where
  status_success : Bool
  status_text : String
  body_text : String
  body_json : Option (List Candidate)

/-- `generate_command_rest` (lib.rs lines 372-419) from the point the HTTP
response is in hand: non-success status is an `Err`; an undecodable body is
an `Err` (`resp.json().await?`); otherwise the decoded candidates are
folded to a command string and returned as `Ok`. -/
def generate_command_rest (resp : RestHttpResponse) : Except String String :=
  if resp.status_success = false then
    .error ("API request failed with status: " ++ resp.status_text ++ " - "
            ++ resp.body_text)
  else
    match resp.body_json with
    | none => .error "JSON parsing error"
    | some candidates => .ok (decodeRestCandidates candidates)

/-- Proto `Part` of the gRPC transport. -/
structure GrpcPart where
  text : String
  deriving DecidableEq, Repr

/-- Proto `Content` of the gRPC transport. -/
structure GrpcContent where
  role : String
  parts : List GrpcPart
  deriving DecidableEq, Repr

/-- Proto `Candidate`: its `content` field is optional. -/
structure GrpcCandidate where
  content : Option GrpcContent
  deriving DecidableEq, Repr

/-- The candidate-decoding step of `generate_command_grpc` (lib.rs lines
451-457): first candidate, its optional content, first part, else the
literal fallback. -/
def decodeGrpcCandidates (candidates : List GrpcCandidate) : String :=
  ((((candidates.head?).bind (fun c => c.content)).bind
      (fun c => c.parts.head?)).map (fun p => p.text)).getD
    "No command generated"

/-- `generate_command_grpc` (lib.rs lines 421-460) from the point the unary
call has returned: a transport/status error is an `Err`; a successful
response is decoded with the same fallback policy and returned as `Ok`. -/
def generate_command_grpc (callResult : Except String (List GrpcCandidate)) :
    Except String String :=
  match callResult with
  | .error e => .error e
  | .ok candidates => .ok (decodeGrpcCandidates candidates)

/-- `ConfigManager::add_allowed_command` (lib.rs lines 128-132): push the
command at the end unless it is already present. -/
def add_allowed_command (allowed : List String) (cmd : String) : List String :=
  if cmd ∈ allowed then allowed else allowed ++ [cmd]

/-- The fields of `std::process::Output` the session loop reads. -/
structure ProcOutput where
  stdout : String
  stderr : String
  success : Bool
  code : Option Int
  deriving DecidableEq, Repr

/-- Rust `format!` of `Option<i32>` with the `{:?}` debug formatter. -/
def formatExitCode : Option Int → String
  | some n => "Some(" ++ toString n ++ ")"
  | none => "None"

/-- `run_command` (main.rs lines 242-264): spawn the platform shell on the
command string; a spawn failure is an `Err`; a nonzero exit status is also
an `Err` (main.rs lines 260-262); only a zero exit status yields `Ok`.
`spawn` abstracts `Command::output`. -/
def run_command (spawn : String → Except String ProcOutput) (cmd : String) :
    Except String Unit :=
  match spawn cmd with
  | .error e => .error ("Komut çalıştırılamadı: " ++ e)
  | .ok out =>
    if out.success then .ok ()
    else .error ("Komut hata koduyla çıktı: " ++ formatExitCode out.code)

/-- `[a-zA-Z_]` of the tool-call regex. -/
def isNameChar (c : Char) : Bool := c.isAlpha || c = '_'

/-- The tool-call regex match `^([a-zA-Z_]+)\((.*)\)$` (main.rs line 151)
as a parser: the name is the maximal leading run of name characters (it
must be nonempty and immediately followed by an opening parenthesis), the
whole string must end with a closing parenthesis, and the inner span must
not contain a newline (`.` does not match one).  Returns the two capture
groups. -/
def parseToolCall (s : String) : Option (String × String) :=
  let cs := s.data
  let nameChars := cs.takeWhile isNameChar
  match cs.dropWhile isNameChar with
  | '(' :: rest =>
    match rest.getLast? with
    | some ')' =>
      if nameChars ≠ [] ∧ (rest.dropLast.contains '\n') = false then
        some (⟨nameChars⟩, ⟨rest.dropLast⟩)
      else none
    | _ => none
  | _ => none

/-- The `ResponseInterpreter` classification of a raw backend output, in
the priority order of main.rs lines 131-185: newline ⇒ informational,
else regex match ⇒ tool call, else shell command. -/
inductive Classified where
  | informational : String → Classified
  | toolCall : String → String → Classified
  | shellCommand : String → Classified
  deriving DecidableEq, Repr

/-- Classify one raw backend output exactly as the session loop does
(`command.contains('\n')` is character containment, taken over the
character data of the string). -/
def classify (command : String) : Classified :=
  if command.data.contains '\n' then .informational command
  else
    match parseToolCall command with
    | some (n, a) => .toolCall n a
    | none => .shellCommand command

/-- Observable actions of one turn of the session loop, in the order they
are performed. -/
inductive Event where
  | printedCommand : String → Event
  | printedInfo : String → Event
  | toolPrompted : String → Event
  | toolExecuted : String → Event
  | toolOutput : ToolResult → Event
  | toolCancelled : Event
  | unknownTool : String → Event
  | shellPrompted : String → Event
  | ranShell : String → Event
  | addedAllowed : String → Event
  | savedConfig : Event
  | notExecuted : Event
  | backendErrorReported : String → Event
  deriving DecidableEq, Repr

/-- The session state the turn loop threads: the conversation history, the
persisted allow-list (`config.allowed_commands`) and the persisted
command-history log. -/
structure TurnState where
  history : List GeminiContent
  allowed : List String
  cmdLog : List String
  deriving DecidableEq, Repr

/-- The `Recording` tail of an executed (or denied / unknown-tool) turn
(main.rs lines 208-222): append the input to the command-history log, then
append the user turn and the committed model suggestion to the history. -/
def recordTurn (st : TurnState) (input command : String) : TurnState :=
  { st with
    cmdLog := st.cmdLog ++ [input]
    history := st.history ++
      [{ role := "user", parts := [{ text := input }] },
       { role := "model", parts := [{ text := command }] }] }

/-- The tool-dispatch branch of the loop (main.rs lines 156-181): consult
`should_confirm_execute`; with a confirmation message, prompt and execute
only on a yes; without one, execute directly.  `tool.execute(...).await?`
propagates a tool `Err` out of the loop (`Except.error`). -/
def toolBranch (tool : MTool) (name : String) (params : JsonVal)
    (confirmChoice : Bool) (st : TurnState) (fs : FS) (input command : String) :
    Except String (TurnState × FS × List Event) :=
  match tool.should_confirm_execute params with
  | some msg =>
    if confirmChoice then
      match tool.run params fs with
      | .error e => .error e
      | .ok (r, fs2) =>
        .ok (recordTurn st input command, fs2,
             [.printedCommand command, .toolPrompted msg,
              .toolExecuted name, .toolOutput r])
    else
      .ok (recordTurn st input command, fs,
           [.printedCommand command, .toolPrompted msg, .toolCancelled])
  | none =>
    match tool.run params fs with
    | .error e => .error e
    | .ok (r, fs2) =>
      .ok (recordTurn st input command, fs2,
           [.printedCommand command, .toolExecuted name, .toolOutput r])

/-- The shell-command branch of the loop (main.rs lines 185-206): show the
unconditional three-way select; on choice 0 run once; on choice 1 append
the command to the allow-list, save the configuration, then run; anything
else declines.  `run_command(&command)?` propagates a run error out of the
loop. -/
def shellBranch (spawn : String → Except String ProcOutput)
    (selectChoice : Option Nat) (st : TurnState) (fs : FS)
    (input command : String) : Except String (TurnState × FS × List Event) :=
  match selectChoice with
  | some 0 =>
    match run_command spawn command with
    | .error e => .error e
    | .ok _ =>
      .ok (recordTurn st input command, fs,
           [.printedCommand command, .shellPrompted command, .ranShell command])
  | some 1 =>
    match run_command spawn command with
    | .error e => .error e
    | .ok _ =>
      .ok (recordTurn { st with allowed := add_allowed_command st.allowed command }
             input command, fs,
           [.printedCommand command, .shellPrompted command,
            .addedAllowed command, .savedConfig, .ranShell command])
  | _ =>
    .ok (recordTurn st input command, fs,
         [.printedCommand command, .shellPrompted command, .notExecuted])

/-- One iteration of the interactive loop of `ShellmindCLI::start`
(main.rs lines 127-227) after a nonempty, non-exit input line: act on the
backend result.  `jparse` abstracts `serde_json::from_str` on the captured
argument span (`unwrap_or_else` degrades a parse failure to the empty
object).  An `Except.ok` return means the loop continues with the new
state; an `Except.error` return is an `Err` propagated by `?` out of
`start`, terminating the session. -/
def turnStep (reg : List MTool) (jparse : String → Option JsonVal)
    (spawn : String → Except String ProcOutput)
    (confirmChoice : Bool) (selectChoice : Option Nat)
    (st : TurnState) (fs : FS) (input : String)
    (backend : Except String String) :
    Except String (TurnState × FS × List Event) :=
  match backend with
  | .error e =>
    .ok (st, fs, [.backendErrorReported ("Error generating command: " ++ e)])
  | .ok command =>
    match classify command with
    | .informational _ =>
      .ok ({ st with history := st.history ++
              [{ role := "user", parts := [{ text := input }] },
               { role := "model", parts := [{ text := command }] }] },
           fs, [.printedCommand command, .printedInfo command])
    | .toolCall name args =>
      match get_tool reg name with
      | some tool =>
        toolBranch tool name ((jparse args).getD (JsonVal.jobj []))
          confirmChoice st fs input command
      | none =>
        .ok (recordTurn st input command, fs,
             [.printedCommand command, .unknownTool name])
    | .shellCommand _ => shellBranch spawn selectChoice st fs input command

/-! Characterization lemmas for the `str::replace` model. -/

theorem startsWithL_append (p s : List Char) : startsWithL p (p ++ s) = true := by
  induction p with
  | nil => rfl
  | cons a as ih => simp [startsWithL, ih]

theorem replaceL_nil (old new : List Char) (h : old ≠ []) :
    replaceL old new [] = [] := by
  simp [replaceL, h]

theorem replaceL_head_match (old new rest : List Char) (h : old ≠ []) :
    replaceL old new (old ++ rest) = new ++ replaceL old new rest := by
  obtain ⟨o, os, rfl⟩ : ∃ o os, old = o :: os := by
    cases old with
    | nil => exact absurd rfl h
    | cons o os => exact ⟨o, os, rfl⟩
  show replaceL (o :: os) new (o :: (os ++ rest)) = _
  rw [replaceL]
  have hs : startsWithL (o :: os) (o :: (os ++ rest)) = true := by
    simpa using startsWithL_append (o :: os) rest
  simp only [ne_eq, reduceCtorEq, not_false_eq_true, hs, and_self, if_true,
    List.length_cons]
  have hdrop : (os ++ rest).drop (os.length + 1 - 1) = rest := by
    simp [List.drop_left]
  rw [hdrop]

theorem replaceL_copy_through (old new : List Char) (h : old ≠ [])
    (m rest : List Char)
    (hm : ∀ i, i < m.length → startsWithL old ((m ++ rest).drop i) = false) :
    replaceL old new (m ++ rest) = m ++ replaceL old new rest := by
  induction m with
  | nil => simp
  | cons c m2 ih =>
    have h0 : startsWithL old (c :: (m2 ++ rest)) = false := by
      simpa using hm 0 (by simp)
    show replaceL old new (c :: (m2 ++ rest)) = _
    rw [replaceL]
    simp only [h0, and_false, if_false, h, if_neg h, Bool.false_eq_true]
    have := ih (fun i hi => by
      have h2 := hm (i + 1) (by simpa using Nat.succ_lt_succ hi)
      simpa using h2)
    rw [this]
    rfl

theorem replaceL_two_occurrences (old new m : List Char) (h : old ≠ [])
    (hm : ∀ i, i < m.length → startsWithL old ((m ++ old).drop i) = false) :
    replaceL old new (old ++ m ++ old) = new ++ m ++ new := by
  have e1 : old ++ m ++ old = old ++ (m ++ old) := by simp
  rw [e1, replaceL_head_match old new (m ++ old) h,
      replaceL_copy_through old new h m old hm]
  have e2 : replaceL old new old = new := by
    have := replaceL_head_match old new [] h
    simpa [replaceL_nil old new h] using this
  rw [e2]
  simp

/-! Claim theorems. -/

/-- Claim C8: when the backend call returns an error, one loop iteration
reports the error, continues (returns `Except.ok`), and leaves the
conversation history — indeed the whole session state and the file store —
unchanged: neither the failed user input nor any model turn is appended. -/
theorem backend_error_leaves_history_unchanged
    (reg : List MTool) (jparse : String → Option JsonVal)
    (spawn : String → Except String ProcOutput) (cc : Bool) (sc : Option Nat)
    (st : TurnState) (fs : FS) (input e : String) :
    turnStep reg jparse spawn cc sc st fs input (.error e) =
      .ok (st, fs, [.backendErrorReported ("Error generating command: " ++ e)]) :=
  rfl

/-- Claim C9: `add_allowed_command` never removes or reorders existing
allow-list entries — the old list is always a prefix of the result; if the
command is already present the list is unchanged, otherwise it equals the
old list with the command appended at the end. -/
theorem add_allowed_command_appends_or_keeps (allowed : List String)
    (cmd : String) :
    (∃ t, add_allowed_command allowed cmd = allowed ++ t) ∧
    (cmd ∈ allowed → add_allowed_command allowed cmd = allowed) ∧
    (cmd ∉ allowed → add_allowed_command allowed cmd = allowed ++ [cmd]) := by
  by_cases h : cmd ∈ allowed
  · exact ⟨⟨[], by simp [add_allowed_command, h]⟩,
           fun _ => by simp [add_allowed_command, h],
           fun hc => absurd h hc⟩
  · exact ⟨⟨[cmd], by simp [add_allowed_command, h]⟩,
           fun hc => absurd hc h,
           fun _ => by simp [add_allowed_command, h]⟩

/-- Witness for C9 at concrete inputs. -/
theorem add_allowed_command_appends_or_keeps_witness :
    ("ls" ∈ ["ls"] ∧ add_allowed_command ["ls"] "ls" = ["ls"]) ∧
    ("pwd" ∉ ["ls"] ∧ add_allowed_command ["ls"] "pwd" = ["ls", "pwd"]) :=
  ⟨⟨by decide, (add_allowed_command_appends_or_keeps ["ls"] "ls").2.1 (by decide)⟩,
   ⟨by decide, (add_allowed_command_appends_or_keeps ["ls"] "pwd").2.2 (by decide)⟩⟩

/-- Claim C7: on both transports, a response whose candidate list is empty,
or whose first candidate carries no text part (for gRPC: no content, or a
content with no parts), decodes to the literal fallback string
`"No command generated"` returned as a success value, not an error. -/
theorem empty_candidates_yield_fallback
    (resp : RestHttpResponse) (c : Candidate) (g : GrpcCandidate) :
    (resp.status_success = true → resp.body_json = some [] →
      generate_command_rest resp = .ok "No command generated") ∧
    (∀ rest, resp.status_success = true →
      resp.body_json = some (c :: rest) → c.content.parts = [] →
      generate_command_rest resp = .ok "No command generated") ∧
    (generate_command_grpc (.ok []) = .ok "No command generated") ∧
    (∀ grest, g.content = none →
      generate_command_grpc (.ok (g :: grest)) = .ok "No command generated") ∧
    (∀ grest gc, g.content = some gc → gc.parts = [] →
      generate_command_grpc (.ok (g :: grest)) = .ok "No command generated") := by
  refine ⟨fun hs hb => ?_, fun rest hs hb hp => ?_, rfl,
          fun grest hg => ?_, fun grest gc hg hp => ?_⟩
  · simp [generate_command_rest, hs, hb, decodeRestCandidates]
  · simp [generate_command_rest, hs, hb, decodeRestCandidates, hp]
  · simp [generate_command_grpc, decodeGrpcCandidates, hg]
  · simp [generate_command_grpc, decodeGrpcCandidates, hg, hp]

/-- Witness for C7 at concrete inputs. -/
theorem empty_candidates_yield_fallback_witness :
    (generate_command_rest ⟨true, "200 OK", "", some []⟩ =
      .ok "No command generated") ∧
    (generate_command_rest ⟨true, "200 OK", "", some [⟨⟨"model", []⟩⟩]⟩ =
      .ok "No command generated") ∧
    (generate_command_grpc (.ok []) = .ok "No command generated") ∧
    (generate_command_grpc (.ok [⟨none⟩]) = .ok "No command generated") ∧
    (generate_command_grpc (.ok [⟨some ⟨"model", []⟩⟩]) =
      .ok "No command generated") :=
  ⟨(empty_candidates_yield_fallback ⟨true, "200 OK", "", some []⟩
      ⟨⟨"model", []⟩⟩ ⟨none⟩).1 rfl rfl,
   (empty_candidates_yield_fallback ⟨true, "200 OK", "", some [⟨⟨"model", []⟩⟩]⟩
      ⟨⟨"model", []⟩⟩ ⟨none⟩).2.1 [] rfl rfl rfl,
   (empty_candidates_yield_fallback ⟨true, "200 OK", "", some []⟩
      ⟨⟨"model", []⟩⟩ ⟨none⟩).2.2.1,
   (empty_candidates_yield_fallback ⟨true, "200 OK", "", some []⟩
      ⟨⟨"model", []⟩⟩ ⟨none⟩).2.2.2.1 [] rfl,
   (empty_candidates_yield_fallback ⟨true, "200 OK", "", some []⟩
      ⟨⟨"model", []⟩⟩ ⟨some ⟨"model", []⟩⟩).2.2.2.2 [] ⟨"model", []⟩ rfl rfl⟩

/-- Claim C10: for every file content of the form `old ++ m ++ old` (two
occurrences of `old_string`, with no further match starting inside `m`),
`edit_file` replaces **both** occurrences — a global replacement, not only
the first — and writes the result back to the same `file_path`. -/
theorem edit_replaces_all_occurrences
    (params : JsonVal) (fs : FS) (fp os ns : String) (m : List Char)
    (h1 : getStr params "file_path" = some fp)
    (h2 : getStr params "old_string" = some os)
    (h3 : getStr params "new_string" = some ns)
    (hfs : fs fp = some ⟨os.data ++ m ++ os.data⟩)
    (hne : os.data ≠ [])
    (hm : ∀ i, i < m.length →
      startsWithL os.data ((m ++ os.data).drop i) = false) :
    editExecute params fs =
      .ok (ToolResult.Success ("Successfully edited file " ++ fp ++ "."),
           fsWrite fs fp ⟨ns.data ++ m ++ ns.data⟩) := by
  have hrep : rustReplace ⟨os.data ++ m ++ os.data⟩ os ns =
      (⟨ns.data ++ m ++ ns.data⟩ : String) := by
    show (⟨replaceL os.data ns.data (os.data ++ m ++ os.data)⟩ : String) = _
    rw [replaceL_two_occurrences os.data ns.data m hne hm]
  simp only [editExecute, h1, h2, h3, hfs, hrep]

/-- Witness for C10: content `"abxab"`, `old_string` `"ab"`, `new_string`
`"Z"`, middle `"x"`; the result written back is `"ZxZ"` — both occurrences
replaced. -/
theorem edit_replaces_all_occurrences_witness :
    (getStr (JsonVal.jobj [("file_path", JsonVal.jstr "f"),
        ("old_string", JsonVal.jstr "ab"), ("new_string", JsonVal.jstr "Z")])
        "file_path" = some "f") ∧
    ((fun q => if q = "f" then some "abxab" else none : FS) "f" =
      some ⟨"ab".data ++ ['x'] ++ "ab".data⟩) ∧
    (∀ i, i < (['x'] : List Char).length →
      startsWithL "ab".data ((['x'] ++ "ab".data).drop i) = false) ∧
    editExecute
        (JsonVal.jobj [("file_path", JsonVal.jstr "f"),
          ("old_string", JsonVal.jstr "ab"), ("new_string", JsonVal.jstr "Z")])
        (fun q => if q = "f" then some "abxab" else none) =
      .ok (ToolResult.Success ("Successfully edited file " ++ "f" ++ "."),
           fsWrite (fun q => if q = "f" then some "abxab" else none) "f"
             ⟨"Z".data ++ ['x'] ++ "Z".data⟩) :=
  ⟨rfl, by decide, by decide,
   edit_replaces_all_occurrences
     (JsonVal.jobj [("file_path", JsonVal.jstr "f"),
       ("old_string", JsonVal.jstr "ab"), ("new_string", JsonVal.jstr "Z")])
     (fun q => if q = "f" then some "abxab" else none)
     "f" "ab" "Z" ['x'] rfl rfl rfl (by decide) (by decide) (by decide)⟩

/-- Counterexample for C1: `ReadFileTool::execute` invoked without the
required `path` parameter returns an `Err(ShellmindError)` — an error
raised past the `execute` boundary — not a `ToolResult` failure value. -/
theorem read_file_missing_param_raises_err :
    readFileExecute (JsonVal.jobj []) (fun _ => none) =
      .error "Missing path parameter for ReadFileTool" := rfl

/-- Claim C1 (amended): for the file tools, `execute` completes with a
typed `ToolResult` — I/O failure folded into `ToolResult::Error` — only
when every required string parameter is present; a missing required
parameter is instead returned as an `Err` past the `execute` boundary
(which the session loop's `?` operator then propagates). -/
theorem file_tools_outcome_with_required_params
    (params : JsonVal) (fs : FS) :
    (∀ p, getStr params "path" = some p →
      ∃ r, readFileExecute params fs = .ok r) ∧
    (∀ p c, getStr params "path" = some p → getStr params "content" = some c →
      ∃ r fs2, writeFileExecute params fs = .ok (r, fs2)) ∧
    (∀ p o n, getStr params "file_path" = some p →
      getStr params "old_string" = some o →
      getStr params "new_string" = some n →
      ∃ r fs2, editExecute params fs = .ok (r, fs2)) ∧
    (getStr params "path" = none →
      ∃ e, readFileExecute params fs = .error e) := by
  refine ⟨fun p hp => ?_, fun p c hp hc => ?_, fun p o n hp ho hn => ?_,
          fun hp => ?_⟩
  · cases hread : fs p with
    | none => exact ⟨ToolResult.Error ("Failed to read file " ++ p),
        by simp [readFileExecute, hp, hread]⟩
    | some content => exact ⟨ToolResult.Success content,
        by simp [readFileExecute, hp, hread]⟩
  · exact ⟨ToolResult.Success ("Successfully wrote to file " ++ p ++ "."),
      fsWrite fs p c, by simp [writeFileExecute, hp, hc]⟩
  · cases hread : fs p with
    | none => exact ⟨ToolResult.Error ("Failed to read file " ++ p), fs,
        by simp [editExecute, hp, ho, hn, hread]⟩
    | some content =>
      exact ⟨ToolResult.Success ("Successfully edited file " ++ p ++ "."),
        fsWrite fs p (rustReplace content o n),
        by simp [editExecute, hp, ho, hn, hread]⟩
  · exact ⟨"Missing path parameter for ReadFileTool",
      by simp [readFileExecute, hp]⟩

/-- Witness for C1 (amended) at concrete inputs. -/
theorem file_tools_outcome_with_required_params_witness :
    (getStr (JsonVal.jobj [("path", JsonVal.jstr "f"),
        ("content", JsonVal.jstr "c"), ("file_path", JsonVal.jstr "f"),
        ("old_string", JsonVal.jstr "o"), ("new_string", JsonVal.jstr "n")])
        "path" = some "f") ∧
    (∃ r, readFileExecute (JsonVal.jobj [("path", JsonVal.jstr "f"),
        ("content", JsonVal.jstr "c"), ("file_path", JsonVal.jstr "f"),
        ("old_string", JsonVal.jstr "o"), ("new_string", JsonVal.jstr "n")])
        (fun _ => none) = .ok r) ∧
    (∃ r fs2, writeFileExecute (JsonVal.jobj [("path", JsonVal.jstr "f"),
        ("content", JsonVal.jstr "c"), ("file_path", JsonVal.jstr "f"),
        ("old_string", JsonVal.jstr "o"), ("new_string", JsonVal.jstr "n")])
        (fun _ => none) = .ok (r, fs2)) ∧
    (∃ r fs2, editExecute (JsonVal.jobj [("path", JsonVal.jstr "f"),
        ("content", JsonVal.jstr "c"), ("file_path", JsonVal.jstr "f"),
        ("old_string", JsonVal.jstr "o"), ("new_string", JsonVal.jstr "n")])
        (fun _ => none) = .ok (r, fs2)) ∧
    (getStr (JsonVal.jobj []) "path" = none ∧
      ∃ e, readFileExecute (JsonVal.jobj []) (fun _ => none) = .error e) :=
  ⟨rfl,
   (file_tools_outcome_with_required_params
      (JsonVal.jobj [("path", JsonVal.jstr "f"), ("content", JsonVal.jstr "c"),
        ("file_path", JsonVal.jstr "f"), ("old_string", JsonVal.jstr "o"),
        ("new_string", JsonVal.jstr "n")]) (fun _ => none)).1 "f" rfl,
   (file_tools_outcome_with_required_params
      (JsonVal.jobj [("path", JsonVal.jstr "f"), ("content", JsonVal.jstr "c"),
        ("file_path", JsonVal.jstr "f"), ("old_string", JsonVal.jstr "o"),
        ("new_string", JsonVal.jstr "n")]) (fun _ => none)).2.1 "f" "c" rfl rfl,
   (file_tools_outcome_with_required_params
      (JsonVal.jobj [("path", JsonVal.jstr "f"), ("content", JsonVal.jstr "c"),
        ("file_path", JsonVal.jstr "f"), ("old_string", JsonVal.jstr "o"),
        ("new_string", JsonVal.jstr "n")]) (fun _ => none)).2.2.1
      "f" "o" "n" rfl rfl rfl,
   rfl,
   (file_tools_outcome_with_required_params (JsonVal.jobj [])
      (fun _ => none)).2.2.2 rfl⟩

/-- Counterexample for C2: with the spawned command exiting with status 1,
the "run once" shell path produces an `Err` that is propagated out of the
session loop (`run_command(&command)?`), terminating the session — no
`Failure` outcome value is reported. -/
theorem nonzero_exit_terminates_session :
    turnStep [] (fun _ => none)
      (fun _ => .ok ⟨"", "", false, some 1⟩) true (some 0)
      ⟨[], [], []⟩ (fun _ => none) "run it" (.ok "false")
      = .error "Komut hata koduyla çıktı: Some(1)" := rfl

/-- Claim C2 (amended): on the ShellCommand path, only a zero exit status
completes the turn (`run_command` returns `Ok`); a nonzero exit status
makes `run_command` return an `Err` carrying the exit code, which the `?`
operator propagates out of the session loop, terminating the session; no
failure-outcome value is produced on this path. -/
theorem run_command_exit_status_spec
    (spawn : String → Except String ProcOutput) (cmd : String)
    (out : ProcOutput) (hspawn : spawn cmd = .ok out) :
    (out.success = true → run_command spawn cmd = .ok ()) ∧
    (out.success = false →
      run_command spawn cmd =
        .error ("Komut hata koduyla çıktı: " ++ formatExitCode out.code)) ∧
    (∀ reg jparse cc st fs input,
      out.success = false →
      classify cmd = Classified.shellCommand cmd →
      turnStep reg jparse spawn cc (some 0) st fs input (.ok cmd) =
        .error ("Komut hata koduyla çıktı: " ++ formatExitCode out.code)) := by
  refine ⟨fun hs => ?_, fun hs => ?_,
          fun reg jparse cc st fs input hs hcl => ?_⟩
  · simp [run_command, hspawn, hs]
  · simp [run_command, hspawn, hs]
  · simp [turnStep, hcl, shellBranch, run_command, hspawn, hs]

/-- Witness for C2 (amended) at concrete inputs: spawn reporting exit
status 0 makes the turn succeed; spawn reporting exit status 1 makes the
turn terminate the session. -/
theorem run_command_exit_status_spec_witness :
    ((fun _ => Except.ok (⟨"", "", true, some 0⟩ : ProcOutput) :
        String → Except String ProcOutput) "false" =
      .ok ⟨"", "", true, some 0⟩) ∧
    (run_command (fun _ => .ok ⟨"", "", true, some 0⟩) "false" = .ok ()) ∧
    ((fun _ => Except.ok (⟨"", "", false, some 1⟩ : ProcOutput) :
        String → Except String ProcOutput) "false" =
      .ok ⟨"", "", false, some 1⟩) ∧
    (run_command (fun _ => .ok ⟨"", "", false, some 1⟩) "false" =
      .error ("Komut hata koduyla çıktı: " ++ formatExitCode (some 1))) ∧
    (classify "false" = Classified.shellCommand "false") ∧
    (turnStep [] (fun _ => none) (fun _ => .ok ⟨"", "", false, some 1⟩)
        true (some 0) ⟨[], [], []⟩ (fun _ => none) "run it" (.ok "false") =
      .error ("Komut hata koduyla çıktı: " ++ formatExitCode (some 1))) :=
  ⟨rfl,
   (run_command_exit_status_spec (fun _ => .ok ⟨"", "", true, some 0⟩)
      "false" ⟨"", "", true, some 0⟩ rfl).1 rfl,
   rfl,
   (run_command_exit_status_spec (fun _ => .ok ⟨"", "", false, some 1⟩)
      "false" ⟨"", "", false, some 1⟩ rfl).2.1 rfl,
   by decide,
   (run_command_exit_status_spec (fun _ => .ok ⟨"", "", false, some 1⟩)
      "false" ⟨"", "", false, some 1⟩ rfl).2.2 [] (fun _ => none) true
      ⟨[], [], []⟩ (fun _ => none) "run it" rfl (by decide)⟩

/-- Claim C3: a tool whose `should_confirm_execute` returns a message is
never executed unless the user confirms — on denial the tool body is not
run, the file store is unchanged and the turn records a cancellation; a
tool whose policy is `None` executes directly with no prompt event.  The
registered `write_file` tool has a `Some` policy and the registered
`read_file` tool a `None` policy on every parameter value. -/
theorem confirmation_gate_controls_execution
    (tool : MTool) (name : String) (params : JsonVal)
    (st : TurnState) (fs : FS) (input command : String) :
    (∀ msg, tool.should_confirm_execute params = some msg →
      toolBranch tool name params false st fs input command =
        .ok (recordTurn st input command, fs,
             [.printedCommand command, .toolPrompted msg, .toolCancelled])) ∧
    (∀ cc r fs2, tool.should_confirm_execute params = none →
      tool.run params fs = .ok (r, fs2) →
      toolBranch tool name params cc st fs input command =
        .ok (recordTurn st input command, fs2,
             [.printedCommand command, .toolExecuted name, .toolOutput r])) ∧
    writeFileTool.should_confirm_execute params =
      some "This will write content to a file. Are you sure?" ∧
    readFileTool.should_confirm_execute params = none := by
  refine ⟨fun msg hmsg => ?_, fun cc r fs2 hnone hrun => ?_, rfl, rfl⟩
  · simp [toolBranch, hmsg]
  · simp [toolBranch, hnone, hrun]

/-- Witness for C3 at concrete inputs: denying `write_file` leaves the
store untouched; `read_file` runs with no prompt. -/
theorem confirmation_gate_controls_execution_witness :
    (writeFileTool.should_confirm_execute
        (JsonVal.jobj [("path", JsonVal.jstr "x"),
          ("content", JsonVal.jstr "y")]) =
      some "This will write content to a file. Are you sure?") ∧
    (toolBranch writeFileTool "write_file"
        (JsonVal.jobj [("path", JsonVal.jstr "x"), ("content", JsonVal.jstr "y")])
        false ⟨[], [], []⟩ (fun _ => none) "please write" "write_file(w)" =
      .ok (recordTurn ⟨[], [], []⟩ "please write" "write_file(w)",
           (fun _ => none),
           [.printedCommand "write_file(w)",
            .toolPrompted "This will write content to a file. Are you sure?",
            .toolCancelled])) ∧
    (readFileTool.should_confirm_execute
        (JsonVal.jobj [("path", JsonVal.jstr "x")]) = none) ∧
    (readFileTool.run (JsonVal.jobj [("path", JsonVal.jstr "x")])
        (fun _ => some "data") =
      .ok (ToolResult.Success "data", fun _ => some "data")) ∧
    (toolBranch readFileTool "read_file"
        (JsonVal.jobj [("path", JsonVal.jstr "x")]) true ⟨[], [], []⟩
        (fun _ => some "data") "please read" "read_file(r)" =
      .ok (recordTurn ⟨[], [], []⟩ "please read" "read_file(r)",
           (fun _ => some "data"),
           [.printedCommand "read_file(r)", .toolExecuted "read_file",
            .toolOutput (ToolResult.Success "data")])) :=
  ⟨rfl,
   (confirmation_gate_controls_execution writeFileTool "write_file"
      (JsonVal.jobj [("path", JsonVal.jstr "x"), ("content", JsonVal.jstr "y")])
      ⟨[], [], []⟩ (fun _ => none) "please write" "write_file(w)").1
      "This will write content to a file. Are you sure?" rfl,
   rfl, rfl,
   (confirmation_gate_controls_execution readFileTool "read_file"
      (JsonVal.jobj [("path", JsonVal.jstr "x")]) ⟨[], [], []⟩
      (fun _ => some "data") "please read" "read_file(r)").2.1
      true (ToolResult.Success "data") (fun _ => some "data") rfl rfl⟩

/-- Claim C4: a backend output containing a newline is classified as an
informational message: one loop iteration appends the user turn and then
the message verbatim to the history, touches nothing else, and performs no
tool or shell execution. -/
theorem multiline_output_is_informational
    (reg : List MTool) (jparse : String → Option JsonVal)
    (spawn : String → Except String ProcOutput) (cc : Bool) (sc : Option Nat)
    (st : TurnState) (fs : FS) (input command : String)
    (h : command.data.contains '\n' = true) :
    classify command = Classified.informational command ∧
    turnStep reg jparse spawn cc sc st fs input (.ok command) =
      .ok ({ st with history := st.history ++
              [{ role := "user", parts := [{ text := input }] },
               { role := "model", parts := [{ text := command }] }] },
           fs, [.printedCommand command, .printedInfo command]) := by
  have h2 : '\n' ∈ command.data := by simpa using h
  constructor
  · simp [classify, h2]
  · simp [turnStep, classify, h2]

/-- Witness for C4 at the concrete output `"use ls\nit lists files"`. -/
theorem multiline_output_is_informational_witness :
    (("use ls\nit lists files").data.contains '\n' = true) ∧
    classify "use ls\nit lists files" =
      Classified.informational "use ls\nit lists files" ∧
    turnStep [] (fun _ => none) (fun _ => .error "no spawn") true none
      ⟨[], [], []⟩ (fun _ => none) "how do I list files"
      (.ok "use ls\nit lists files") =
      .ok ((⟨[⟨"user", [⟨"how do I list files"⟩]⟩,
              ⟨"model", [⟨"use ls\nit lists files"⟩]⟩], [], []⟩ : TurnState),
           (fun _ => none),
           [.printedCommand "use ls\nit lists files",
            .printedInfo "use ls\nit lists files"]) :=
  ⟨by decide,
   (multiline_output_is_informational [] (fun _ => none)
      (fun _ => .error "no spawn") true none ⟨[], [], []⟩ (fun _ => none)
      "how do I list files" "use ls\nit lists files" (by decide)).1,
   (multiline_output_is_informational [] (fun _ => none)
      (fun _ => .error "no spawn") true none ⟨[], [], []⟩ (fun _ => none)
      "how do I list files" "use ls\nit lists files" (by decide)).2⟩

/-- Claim C5: a single-line output matching `name(args)` with `name` a
registered tool is classified as a tool invocation and dispatched to that
tool; with `name` unregistered the turn reports the unknown tool and
performs no execution — it is not re-classified as a shell command. -/
theorem tool_call_classification_and_dispatch
    (reg : List MTool) (jparse : String → Option JsonVal)
    (spawn : String → Except String ProcOutput) (cc : Bool) (sc : Option Nat)
    (st : TurnState) (fs : FS) (input command name args : String)
    (hnl : command.data.contains '\n' = false)
    (hparse : parseToolCall command = some (name, args)) :
    classify command = Classified.toolCall name args ∧
    (∀ tool, get_tool reg name = some tool →
      turnStep reg jparse spawn cc sc st fs input (.ok command) =
        toolBranch tool name ((jparse args).getD (JsonVal.jobj []))
          cc st fs input command) ∧
    (get_tool reg name = none →
      turnStep reg jparse spawn cc sc st fs input (.ok command) =
        .ok (recordTurn st input command, fs,
             [.printedCommand command, .unknownTool name])) := by
  have h2 : '\n' ∉ command.data := by simpa using hnl
  refine ⟨by simp [classify, h2, hparse], fun tool htool => ?_, fun htool => ?_⟩
  · simp [turnStep, classify, h2, hparse, htool]
  · simp [turnStep, classify, h2, hparse, htool]

/-- Witness for C5: `"read_file(x)"` with `read_file` registered is
dispatched to that tool; `"mystery_tool(x)"` is reported unknown, with no
execution and no shell path. -/
theorem tool_call_classification_and_dispatch_witness :
    (("read_file(x)").data.contains '\n' = false) ∧
    (parseToolCall "read_file(x)" = some ("read_file", "x")) ∧
    (get_tool [readFileTool, writeFileTool] "read_file" = some readFileTool) ∧
    (turnStep [readFileTool, writeFileTool] (fun _ => none)
        (fun _ => .error "no spawn") true none ⟨[], [], []⟩ (fun _ => none)
        "read x" (.ok "read_file(x)") =
      toolBranch readFileTool "read_file" (JsonVal.jobj []) true
        ⟨[], [], []⟩ (fun _ => none) "read x" "read_file(x)") ∧
    (parseToolCall "mystery_tool(x)" = some ("mystery_tool", "x")) ∧
    (get_tool [readFileTool, writeFileTool] "mystery_tool" = none) ∧
    (turnStep [readFileTool, writeFileTool] (fun _ => none)
        (fun _ => .error "no spawn") true none ⟨[], [], []⟩ (fun _ => none)
        "do magic" (.ok "mystery_tool(x)") =
      .ok (recordTurn ⟨[], [], []⟩ "do magic" "mystery_tool(x)",
           (fun _ => none),
           [.printedCommand "mystery_tool(x)", .unknownTool "mystery_tool"])) :=
  ⟨by decide, by decide, rfl,
   (tool_call_classification_and_dispatch [readFileTool, writeFileTool]
      (fun _ => none) (fun _ => .error "no spawn") true none ⟨[], [], []⟩
      (fun _ => none) "read x" "read_file(x)" "read_file" "x"
      (by decide) (by decide)).2.1 readFileTool rfl,
   by decide, rfl,
   (tool_call_classification_and_dispatch [readFileTool, writeFileTool]
      (fun _ => none) (fun _ => .error "no spawn") true none ⟨[], [], []⟩
      (fun _ => none) "do magic" "mystery_tool(x)" "mystery_tool" "x"
      (by decide) (by decide)).2.2 rfl⟩

/-- Claim C6: choosing "always allow" for a shell command appends the exact
command string to the allow-list (and saves the configuration) before the
command runs — visible in the event order — and, on any turn whose state
already lists the identical command string, the three-way shell prompt is
still shown: the allow-list is never consulted to skip prompting. -/
theorem always_allow_persists_and_still_prompts
    (spawn : String → Except String ProcOutput)
    (st : TurnState) (fs : FS) (input command : String) (out : ProcOutput)
    (hspawn : spawn command = .ok out) (hok : out.success = true)
    (hnl : command.data.contains '\n' = false)
    (hparse : parseToolCall command = none) :
    (∀ reg jparse cc,
      turnStep reg jparse spawn cc (some 1) st fs input (.ok command) =
        .ok (recordTurn
               { st with allowed := add_allowed_command st.allowed command }
               input command, fs,
             [.printedCommand command, .shellPrompted command,
              .addedAllowed command, .savedConfig, .ranShell command])) ∧
    (command ∈ st.allowed →
      ∀ sc, ∃ st2 evs,
        shellBranch spawn sc st fs input command = .ok (st2, fs, evs) ∧
        Event.shellPrompted command ∈ evs) := by
  have h2 : '\n' ∉ command.data := by simpa using hnl
  have hrun : run_command spawn command = .ok () := by
    simp [run_command, hspawn, hok]
  refine ⟨fun reg jparse cc => ?_, fun _ sc => ?_⟩
  · simp [turnStep, classify, h2, hparse, shellBranch, hrun]
  · match sc with
    | none => exact ⟨recordTurn st input command,
        [.printedCommand command, .shellPrompted command, .notExecuted],
        by simp [shellBranch], by simp⟩
    | some 0 => exact ⟨recordTurn st input command,
        [.printedCommand command, .shellPrompted command, .ranShell command],
        by simp [shellBranch, hrun], by simp⟩
    | some 1 => exact ⟨recordTurn
          { st with allowed := add_allowed_command st.allowed command }
          input command,
        [.printedCommand command, .shellPrompted command,
         .addedAllowed command, .savedConfig, .ranShell command],
        by simp [shellBranch, hrun], by simp⟩
    | some (n + 2) => exact ⟨recordTurn st input command,
        [.printedCommand command, .shellPrompted command, .notExecuted],
        by simp [shellBranch], by simp⟩

/-- Witness for C6 at the spec's own scenario command `rm -rf /tmp/test`,
with that very string already on the allow-list. -/
theorem always_allow_persists_and_still_prompts_witness :
    ((fun _ => Except.ok (⟨"", "", true, some 0⟩ : ProcOutput) :
        String → Except String ProcOutput) "rm -rf /tmp/test" =
      .ok ⟨"", "", true, some 0⟩) ∧
    (("rm -rf /tmp/test").data.contains '\n' = false) ∧
    (parseToolCall "rm -rf /tmp/test" = none) ∧
    (turnStep [] (fun _ => none) (fun _ => .ok ⟨"", "", true, some 0⟩)
        true (some 1) ⟨[], [], []⟩ (fun _ => none) "delete the test dir"
        (.ok "rm -rf /tmp/test") =
      .ok (recordTurn
             ⟨[], add_allowed_command [] "rm -rf /tmp/test", []⟩
             "delete the test dir" "rm -rf /tmp/test", (fun _ => none),
           [.printedCommand "rm -rf /tmp/test",
            .shellPrompted "rm -rf /tmp/test",
            .addedAllowed "rm -rf /tmp/test", .savedConfig,
            .ranShell "rm -rf /tmp/test"])) ∧
    ("rm -rf /tmp/test" ∈ ["rm -rf /tmp/test"] ∧
      ∃ st2 evs,
        shellBranch (fun _ => .ok ⟨"", "", true, some 0⟩) none
            ⟨[], ["rm -rf /tmp/test"], []⟩ (fun _ => none)
            "delete the test dir" "rm -rf /tmp/test" =
          .ok (st2, (fun _ => none), evs) ∧
        Event.shellPrompted "rm -rf /tmp/test" ∈ evs) :=
  ⟨rfl, by decide, by decide,
   (always_allow_persists_and_still_prompts
      (fun _ => .ok ⟨"", "", true, some 0⟩) ⟨[], [], []⟩ (fun _ => none)
      "delete the test dir" "rm -rf /tmp/test" ⟨"", "", true, some 0⟩
      rfl rfl (by decide) (by decide)).1 [] (fun _ => none) true,
   ⟨by decide,
    (always_allow_persists_and_still_prompts
       (fun _ => .ok ⟨"", "", true, some 0⟩) ⟨[], ["rm -rf /tmp/test"], []⟩
       (fun _ => none) "delete the test dir" "rm -rf /tmp/test"
       ⟨"", "", true, some 0⟩ rfl rfl (by decide) (by decide)).2
       (by decide) none⟩⟩

end Shellmind
